import Mathlib

/-!
# Verification of `torch_stain_norm` (CielAl/torch_stain_norm)

Shallow embedding, over the real numbers, of the two source files

* `src/torch_staintools/functional/optimization/dict_learning.py`
* `src/torch_staintools/normalizer/separation.py`

Tensors are modelled as functions / `Matrix` over `Fin`-indexed types, so
shape contracts become typing.  Floating point arithmetic is idealised as
exact real arithmetic.  The iterative solvers (`coord_descent`, `ista`),
`initialize_code`, `rgb2od`, `percentile` and `get_eps` live in modules that
are not part of the two source files; they are collaborators of the core and
are threaded through as explicit function parameters.
-/

noncomputable section

namespace TorchStainNorm

open Matrix BigOperators Classical

/-! ## Elementary tensor helpers (torch primitives) -/

/-- `tensor.clamp_(0, 1)`: clamp a scalar entry into `[0, 1]`
(first the lower bound, then the upper bound). -/
def clamp01 (x : ℝ) : ℝ := min (max x 0) 1

/-- `tensor.clamp_(0, None)`: clamp a scalar entry from below by `0`. -/
def clampLow (x : ℝ) : ℝ := max x 0

/-- Squared euclidean norm of a vector, `∑ j, v j ^ 2`. -/
def l2normSq {n : ℕ} (v : Fin n → ℝ) : ℝ := ∑ j, v j ^ 2

/-- `tensor.norm()` of a vector: euclidean norm. -/
def l2norm {n : ℕ} (v : Fin n → ℝ) : ℝ := Real.sqrt (l2normSq v)

/-- Sum of squared entries of a matrix (squared Frobenius norm). -/
def matFroSq {m n : ℕ} (M : Matrix (Fin m) (Fin n) ℝ) : ℝ := ∑ i, ∑ j, M i j ^ 2

/-- `tensor.norm(p=2)` of a matrix: torch flattens the tensor, so this is the
Frobenius norm. -/
def matFroNorm {m n : ℕ} (M : Matrix (Fin m) (Fin n) ℝ) : ℝ := Real.sqrt (matFroSq M)

/-- `tensor.norm(p=1)` of a matrix: sum of absolute values of all entries. -/
def matL1 {m n : ℕ} (M : Matrix (Fin m) (Fin n) ℝ) : ℝ := ∑ i, ∑ j, |M i j|

theorem matFroSq_nonneg {m n : ℕ} (M : Matrix (Fin m) (Fin n) ℝ) : 0 ≤ matFroSq M := by
  unfold matFroSq
  positivity

theorem matFroNorm_sq {m n : ℕ} (M : Matrix (Fin m) (Fin n) ℝ) :
    matFroNorm M ^ 2 = matFroSq M := Real.sq_sqrt (matFroSq_nonneg M)

/-! ## `lasso_loss` (dict_learning.py, lines 21–26) -/

/-- `lasso_loss(X, Z, weight, alpha)`:

    X_hat = torch.matmul(Z, weight.T)
    lambda2 = 10e-10
    lambda1 = 0.1
    loss = 0.5 * (X - X_hat).norm(p=2).pow(2) + weight.norm(p=1) * lambda1
           + lambda2 * weight.norm(p=2).pow(2)
    return loss.mean()

`loss` is a zero-dimensional tensor, so `loss.mean()` is the scalar itself. -/
def lasso_loss {ns nf nc : ℕ} (X : Matrix (Fin ns) (Fin nf) ℝ)
    (Z : Matrix (Fin ns) (Fin nc) ℝ) (weight : Matrix (Fin nf) (Fin nc) ℝ)
    (_alpha : ℝ) : ℝ :=
  let X_hat := Z * weightᵀ
  let lambda2 : ℝ := 10e-10
  let lambda1 : ℝ := 0.1
  let loss := 0.5 * matFroNorm (X - X_hat) ^ 2 + matL1 weight * lambda1
    + lambda2 * matFroNorm weight ^ 2
  loss

/-- Modelled from the spec: the per-sample-mean reading of
"`loss(X, Z, W, α) = mean_over_samples[ 0.5·‖X − ZWᵀ‖₂² ] + λ1·‖W‖₁ + λ2·‖W‖₂²`",
i.e. the mean over the `ns` samples of the per-sample squared residual norm. -/
def lasso_loss_spec_mean {ns nf nc : ℕ} (X : Matrix (Fin ns) (Fin nf) ℝ)
    (Z : Matrix (Fin ns) (Fin nc) ℝ) (weight : Matrix (Fin nf) (Fin nc) ℝ)
    (_alpha : ℝ) : ℝ :=
  (∑ i, 0.5 * l2normSq (fun j => (X - Z * weightᵀ) i j)) / (ns : ℝ)
    + matL1 weight * 0.1 + 10e-10 * matFroSq weight

/-- Concrete observation matrix for the C2 counterexample: two samples, one
feature, both entries `2`. -/
def X₂ : Matrix (Fin 2) (Fin 1) ℝ := fun _ _ => 2

/-- Concrete all-zero code for the C2 counterexample. -/
def Z₂ : Matrix (Fin 2) (Fin 1) ℝ := fun _ _ => 0

/-- Concrete all-zero weight for the C2 counterexample. -/
def W₂ : Matrix (Fin 1) (Fin 1) ℝ := fun _ _ => 0

/-- C2 counterexample: with two samples, `lasso_loss` is NOT the per-sample
mean of the residual term.  At `X = [[2],[2]]`, `Z = 0`, `W = 0` the code
returns `0.5·(2² + 2²) = 4` while the mean-over-samples formula of the claim
gives `2`. -/
theorem lasso_loss_not_mean_over_samples :
    lasso_loss X₂ Z₂ W₂ 1 ≠ lasso_loss_spec_mean X₂ Z₂ W₂ 1 := by
  have h4 : lasso_loss X₂ Z₂ W₂ 1 = 4 := by
    simp only [lasso_loss, matFroNorm_sq]
    simp [matFroSq, matL1, X₂, Z₂, W₂, Matrix.sub_apply, Matrix.mul_apply,
      Fin.sum_univ_two, Fin.sum_univ_one]
    norm_num
  have h2 : lasso_loss_spec_mean X₂ Z₂ W₂ 1 = 2 := by
    simp [lasso_loss_spec_mean, matFroSq, matL1, l2normSq, X₂, Z₂, W₂,
      Matrix.sub_apply, Matrix.mul_apply, Fin.sum_univ_two, Fin.sum_univ_one]
    norm_num
  rw [h4, h2]
  norm_num

/-- C2 (amended): `lasso_loss(X, Z, W, α)` equals
`0.5·‖X − ZWᵀ‖_F²` (summed over all samples, with no division by the number of
samples: the `.mean()` is applied to a zero-dimensional scalar and is a no-op)
plus `λ1·‖W‖₁ + λ2·‖W‖₂²` with the fixed constants `λ1 = 0.1` and
`λ2 = 10e-10 = 1e-9`. -/
theorem lasso_loss_closed_form {ns nf nc : ℕ} (X : Matrix (Fin ns) (Fin nf) ℝ)
    (Z : Matrix (Fin ns) (Fin nc) ℝ) (weight : Matrix (Fin nf) (Fin nc) ℝ)
    (alpha : ℝ) :
    lasso_loss X Z weight alpha
      = 0.5 * matFroSq (X - Z * weightᵀ) + 0.1 * matL1 weight
        + (1e-9 : ℝ) * matFroSq weight := by
  simp only [lasso_loss, matFroNorm_sq]
  norm_num
  ring

/-! ## `sparse_encode` (dict_learning.py, lines 115–139)

The iterative solvers `coord_descent` and `ista` and the code initializer
`initialize_code` are imported from modules outside the two source files;
they are collaborators, bundled here as explicit function parameters. -/

/-- Collaborators of `sparse_encode` / `dict_learning`:
`cd` is `coord_descent(x, weight, z0, alpha)`, `ista` is
`ista(x, z0, weight, alpha)`, and `init_code` is
`initialize_code(x, weight, alpha, mode)` (its `mode` argument is the string
passed as `init`). -/
structure SparseCollab (ns nf nc : ℕ) where
  cd : Matrix (Fin ns) (Fin nf) ℝ → Matrix (Fin nf) (Fin nc) ℝ →
    Matrix (Fin ns) (Fin nc) ℝ → ℝ → Matrix (Fin ns) (Fin nc) ℝ
  ista : Matrix (Fin ns) (Fin nf) ℝ → Matrix (Fin ns) (Fin nc) ℝ →
    Matrix (Fin nf) (Fin nc) ℝ → ℝ → Matrix (Fin ns) (Fin nc) ℝ
  init_code : Matrix (Fin ns) (Fin nf) ℝ → Matrix (Fin nf) (Fin nc) ℝ →
    ℝ → String → Matrix (Fin ns) (Fin nc) ℝ

/-- Observable side effects of `sparse_encode` before the solver dispatch:
calling `initialize_code`, and the `warnings.warn` for zero-initialised
iterative ridge. -/
inductive SEEffect where
  | initCode (mode : String)
  | warnZeroInit
  deriving DecidableEq, Repr

/-- `_init_defaults.get(algorithm, 'zero')` with
`_init_defaults = \x7b'ista': 'zero', 'cd': 'zero'\x7d`. -/
def init_default (algorithm : String) : String :=
  if algorithm = "ista" then "zero" else if algorithm = "cd" then "zero" else "zero"

/-- The `match algorithm` dispatch at the end of `sparse_encode` (lines
132–139).  Python's structural `match` on a string is sequential equality
testing, modelled as an `if` chain.  The `ValueError` message is
`"invalid algorithm parameter '\x7b\x7d'.".format(algorithm)`. -/
def sparse_dispatch {ns nf nc : ℕ} (co : SparseCollab ns nf nc)
    (x : Matrix (Fin ns) (Fin nf) ℝ) (weight : Matrix (Fin nf) (Fin nc) ℝ)
    (alpha : ℝ) (z0 : Matrix (Fin ns) (Fin nc) ℝ) (effs : List SEEffect)
    (algorithm : String) : List SEEffect × Except String (Matrix (Fin ns) (Fin nc) ℝ) :=
  if algorithm = "cd" then (effs, Except.ok (co.cd x weight z0 alpha))
  else if algorithm = "ista" then (effs, Except.ok (co.ista x z0 weight alpha))
  else (effs, Except.error ("invalid algorithm parameter \x27" ++ algorithm ++ "\x27."))

/-- `sparse_encode(x, weight, alpha, z0, algorithm, init)`; the result is
paired with the ordered list of observable effects performed before the
dispatch.  When `z0` is supplied its shape `(n_samples, n_components)` is
asserted — guaranteed here by typing, so the assert never fires — and the
whole initialisation block is skipped. -/
def sparse_encode {ns nf nc : ℕ} (co : SparseCollab ns nf nc)
    (x : Matrix (Fin ns) (Fin nf) ℝ) (weight : Matrix (Fin nf) (Fin nc) ℝ)
    (alpha : ℝ) (z0 : Option (Matrix (Fin ns) (Fin nc) ℝ))
    (algorithm : String) (initMode : Option String) :
    List SEEffect × Except String (Matrix (Fin ns) (Fin nc) ℝ) :=
  match z0 with
  | some z => sparse_dispatch co x weight alpha z [] algorithm
  | none =>
    let im := initMode.getD (init_default algorithm)
    let effs := (if initMode = some "zero" ∧ algorithm = "iter-ridge"
      then [SEEffect.warnZeroInit] else []) ++ [SEEffect.initCode im]
    sparse_dispatch co x weight alpha (co.init_code x weight alpha im) effs algorithm

/-- Trivial collaborator instance for closed evaluations. -/
def trivialCollab : SparseCollab 1 1 1 where
  cd := fun _ _ _ _ => fun _ _ => 0
  ista := fun _ _ _ _ => fun _ _ => 0
  init_code := fun _ _ _ _ => fun _ _ => 0

/-- C3 counterexample: calling `sparse_encode` with the unknown algorithm
`"foo"` and no warm start does raise the invalid-argument error naming
`"foo"`, but only after `initialize_code` has run: partial work IS performed
before the failure, refuting the claim's "no partial work" part. -/
theorem sparse_encode_invalid_alg_does_partial_work :
    (sparse_encode trivialCollab (fun _ _ => 0) (fun _ _ => 0) 1 none "foo" none).2
        = Except.error "invalid algorithm parameter \x27foo\x27."
      ∧ (sparse_encode trivialCollab (fun _ _ => 0) (fun _ _ => 0) 1 none "foo" none).1
        = [SEEffect.initCode "zero"] := by
  constructor <;>
    simp [sparse_encode, sparse_dispatch, init_default]

/-- C3 (amended): for every algorithm string outside `{"cd", "ista"}`,
`sparse_encode` fails with an invalid-argument error whose message names the
offending value; no work precedes the failure exactly when a warm-start `z0`
is supplied — otherwise `initialize_code` (preceded, for
`init = "zero"` with `algorithm = "iter-ridge"`, by a warning) runs before
the error is raised. -/
theorem sparse_encode_invalid_alg {ns nf nc : ℕ} (co : SparseCollab ns nf nc)
    (x : Matrix (Fin ns) (Fin nf) ℝ) (weight : Matrix (Fin nf) (Fin nc) ℝ)
    (alpha : ℝ) (z0 : Option (Matrix (Fin ns) (Fin nc) ℝ))
    (algorithm : String) (initMode : Option String)
    (h1 : algorithm ≠ "cd") (h2 : algorithm ≠ "ista") :
    (sparse_encode co x weight alpha z0 algorithm initMode).2
        = Except.error ("invalid algorithm parameter \x27" ++ algorithm ++ "\x27.")
      ∧ (∀ z, z0 = some z →
          (sparse_encode co x weight alpha z0 algorithm initMode).1 = [])
      ∧ (z0 = none →
          (sparse_encode co x weight alpha z0 algorithm initMode).1
            = (if initMode = some "zero" ∧ algorithm = "iter-ridge"
                then [SEEffect.warnZeroInit] else [])
              ++ [SEEffect.initCode (initMode.getD (init_default algorithm))]) := by
  refine ⟨?_, ?_, ?_⟩
  · cases z0 <;> simp [sparse_encode, sparse_dispatch, h1, h2]
  · rintro z rfl
    simp [sparse_encode, sparse_dispatch, h1, h2]
  · rintro rfl
    simp [sparse_encode, sparse_dispatch, h1, h2]

/-- Witness for `sparse_encode_invalid_alg` at the concrete algorithm
`"quux"` with a supplied warm start. -/
theorem sparse_encode_invalid_alg_witness :
    (sparse_encode trivialCollab (fun _ _ => 0) (fun _ _ => 0) 1
        (some fun _ _ => 0) "quux" none).2
      = Except.error "invalid algorithm parameter \x27quux\x27."
    ∧ (sparse_encode trivialCollab (fun _ _ => 0) (fun _ _ => 0) 1
        (some fun _ _ => 0) "quux" none).1 = [] := by
  have h := sparse_encode_invalid_alg trivialCollab (fun _ _ => 0) (fun _ _ => 0) 1
    (some fun _ _ => 0) "quux" none (by decide) (by decide)
  exact ⟨h.1, h.2.1 _ rfl⟩

/-- C10: when a warm-start `z0` of the correct shape is supplied, the `init`
argument has no effect at all: for any two `init` values the whole result
(effects and returned code) is identical, and the effect trace is empty (no
code initialisation, no warning). -/
theorem sparse_encode_warm_start_ignores_init {ns nf nc : ℕ}
    (co : SparseCollab ns nf nc) (x : Matrix (Fin ns) (Fin nf) ℝ)
    (weight : Matrix (Fin nf) (Fin nc) ℝ) (alpha : ℝ)
    (z : Matrix (Fin ns) (Fin nc) ℝ) (algorithm : String)
    (init₁ init₂ : Option String) :
    sparse_encode co x weight alpha (some z) algorithm init₁
        = sparse_encode co x weight alpha (some z) algorithm init₂
      ∧ (sparse_encode co x weight alpha (some z) algorithm init₁).1 = [] := by
  constructor
  · rfl
  · simp [sparse_encode, sparse_dispatch]
    split_ifs <;> rfl

/-! ## `update_dict` (dict_learning.py, lines 29–80)

The torch generator `rng` is modelled as an explicit stream
`reseed : ℕ → Fin nf → ℝ` giving the values filled in by
`dictionary[:, k].normal_(generator=rng)` at the n-th reseed event, and
`get_eps(dictionary)` (a collaborator from `functional/eps.py`, the
dtype-aware epsilon) as a parameter `geteps`. -/

/-- The in-place state of `update_dict`: dictionary, code, residual matrix
and the number of generator draws consumed so far. -/
structure UDState (nf nc ns : ℕ) where
  D : Matrix (Fin nf) (Fin nc) ℝ
  Z : Matrix (Fin ns) (Fin nc) ℝ
  R : Matrix (Fin ns) (Fin nf) ℝ
  draws : ℕ

/-- One iteration of the `for k in range(n_components)` loop of
`update_dict` (lines 55–79), acting on atom `k`:

    R += torch.outer(code[:, k], dictionary[:, k])
    dictionary[:, k] = torch.matmul(code[:, k], R)
    if positive: dictionary[:, k].clamp_(0, None)
    atom_norm = dictionary[:, k].norm()
    if atom_norm < eps:
        dictionary[:, k].normal_(generator=rng)
        if positive:
            dictionary[:, k].clamp_(0, None)
            dictionary[:, k] = dictionary[:, k].abs()   # abs after clamp
        column_norm = dictionary[:, k].norm() + get_eps(dictionary)
        dictionary[:, k] /= column_norm
        code[:, k].zero_()
    else:
        dictionary[:, k] /= atom_norm
        R -= torch.outer(code[:, k], dictionary[:, k])
-/
def updateAtom {nf nc ns : ℕ} (positive : Bool) (eps geteps : ℝ)
    (reseed : ℕ → Fin nf → ℝ) (s : UDState nf nc ns) (k : Fin nc) :
    UDState nf nc ns :=
  let R1 : Matrix (Fin ns) (Fin nf) ℝ := fun i j => s.R i j + s.Z i k * s.D j k
  let d1 : Fin nf → ℝ := fun j => ∑ i, s.Z i k * R1 i j
  let d2 : Fin nf → ℝ := if positive then fun j => clampLow (d1 j) else d1
  let atomNorm := l2norm d2
  if atomNorm < eps then
    let draw := reseed s.draws
    let d3 : Fin nf → ℝ := if positive then fun j => |clampLow (draw j)| else draw
    let colNorm := l2norm d3 + geteps
    let d4 : Fin nf → ℝ := fun j => d3 j / colNorm
    { D := fun j k' => if k' = k then d4 j else s.D j k'
      Z := fun i k' => if k' = k then 0 else s.Z i k'
      R := R1
      draws := s.draws + 1 }
  else
    let d4 : Fin nf → ℝ := fun j => d2 j / atomNorm
    { D := fun j k' => if k' = k then d4 j else s.D j k'
      Z := s.Z
      R := fun i j => R1 i j - s.Z i k * d4 j
      draws := s.draws }

/-- `update_dict(dictionary, x, code, positive, eps, rng)` (lines 29–80):
initial residual `R = x - torch.matmul(code, dictionary.T)`, then the atom
loop for `k = 0 .. n_components - 1`.  Returns the full mutated state (the
Python function mutates `dictionary` and `code` in place and returns
`dictionary`). -/
def update_dict {nf nc ns : ℕ} (dictionary : Matrix (Fin nf) (Fin nc) ℝ)
    (x : Matrix (Fin ns) (Fin nf) ℝ) (code : Matrix (Fin ns) (Fin nc) ℝ)
    (positive : Bool) (eps geteps : ℝ) (reseed : ℕ → Fin nf → ℝ)
    (draws0 : ℕ) : UDState nf nc ns :=
  (List.finRange nc).foldl (updateAtom positive eps geteps reseed)
    { D := dictionary, Z := code, R := x - code * dictionaryᵀ, draws := draws0 }

theorem update_dict_one_component {nf ns : ℕ}
    (dictionary : Matrix (Fin nf) (Fin 1) ℝ) (x : Matrix (Fin ns) (Fin nf) ℝ)
    (code : Matrix (Fin ns) (Fin 1) ℝ) (positive : Bool) (eps geteps : ℝ)
    (reseed : ℕ → Fin nf → ℝ) (draws0 : ℕ) :
    update_dict dictionary x code positive eps geteps reseed draws0
      = updateAtom positive eps geteps reseed
          { D := dictionary, Z := code, R := x - code * dictionaryᵀ,
            draws := draws0 } 0 := by
  have h : List.finRange 1 = [(0 : Fin 1)] := by decide
  simp [update_dict, h]

/-- All-ones matrix, for concrete instances. -/
def onesM (m n : ℕ) : Matrix (Fin m) (Fin n) ℝ := fun _ _ => 1

/-- All-zeros matrix, for concrete instances. -/
def zerosM (m n : ℕ) : Matrix (Fin m) (Fin n) ℝ := fun _ _ => 0

/-- C4, evaluation at the failing input: one feature, one component, one
sample; `code` is all zero (so atom 0 degenerates and is reseeded) and the
generator draw is `-1` (all-negative).  Because the code clamps BEFORE taking
the absolute value, the reseeded atom collapses to the zero vector: every
entry of the returned dictionary is `0` and the atom's L2 norm is `0`, not
`≈ 1` — the unit-norm part of the invariant fails even though `positive=True`
non-negativity holds. -/
theorem update_dict_allneg_reseed_zero_atom :
    (∀ j k, (update_dict (onesM 1 1) (zerosM 1 1) (zerosM 1 1)
        true 1e-7 1e-7 (fun _ _ => -1) 0).D j k = 0)
      ∧ l2norm (fun j => (update_dict (onesM 1 1) (zerosM 1 1) (zerosM 1 1)
        true 1e-7 1e-7 (fun _ _ => -1) 0).D j 0) = 0 := by
  have hD : ∀ j k, (update_dict (onesM 1 1) (zerosM 1 1) (zerosM 1 1)
      true 1e-7 1e-7 (fun _ _ => -1) 0).D j k = 0 := by
    intro j k
    fin_cases j
    fin_cases k
    rw [update_dict_one_component]
    norm_num [updateAtom, clampLow, l2norm, l2normSq, Real.sqrt_zero,
      onesM, zerosM, Matrix.sub_apply, Matrix.mul_apply, Fin.sum_univ_one]
  refine ⟨hD, ?_⟩
  have h0 : (fun j => (update_dict (onesM 1 1) (zerosM 1 1) (zerosM 1 1)
      true 1e-7 1e-7 (fun _ _ => -1) 0).D j 0) = fun _ => (0 : ℝ) := by
    funext j
    exact hD j 0
  rw [h0]
  simp [l2norm, l2normSq, Real.sqrt_zero]

/-- C5, evaluation at the failing input: two features, one component, one
sample, code column 0 all zero (the degenerate-atom premise of the claim) and
an all-negative generator draw `(-1, -1)`.  The reseed branch IS taken
(`draws = 1`) and the code column is zeroed, but the reseeded atom is the
zero vector rather than the non-zero unit-norm vector the claim promises. -/
theorem update_dict_reseed_not_unit_norm :
    (∀ j, (update_dict (onesM 2 1) (zerosM 1 2) (zerosM 1 1)
        true 1e-7 1e-7 (fun _ _ => -1) 0).D j 0 = 0)
      ∧ (∀ i, (update_dict (onesM 2 1) (zerosM 1 2) (zerosM 1 1)
        true 1e-7 1e-7 (fun _ _ => -1) 0).Z i 0 = 0)
      ∧ (update_dict (onesM 2 1) (zerosM 1 2) (zerosM 1 1)
        true 1e-7 1e-7 (fun _ _ => -1) 0).draws = 1 := by
  refine ⟨fun j => ?_, fun i => ?_, ?_⟩ <;>
  · rw [update_dict_one_component]
    norm_num [updateAtom, clampLow, l2norm, l2normSq, Real.sqrt_zero,
      onesM, zerosM, Matrix.sub_apply, Matrix.mul_apply, Fin.sum_univ_one,
      Fin.sum_univ_two]

/-! ## `update_dict_ridge` (dict_learning.py, lines 83–105) -/

/-- `update_dict_ridge(x, code, lambd)`:

    rhs = torch.mm(code.T, x)
    M = torch.mm(code.T, code)
    M.diagonal().add_(lambd * x.size(0))
    L = torch.linalg.cholesky(M)
    V = torch.cholesky_solve(rhs, L).T
    return V

`torch.linalg.cholesky` succeeds exactly when the (symmetric) matrix `M` is
positive definite, in which case `cholesky_solve(rhs, L)` returns `M⁻¹ rhs`;
otherwise it raises a linear-algebra error, modelled as `Except.error`. -/
def update_dict_ridge {ns nf nc : ℕ} (x : Matrix (Fin ns) (Fin nf) ℝ)
    (code : Matrix (Fin ns) (Fin nc) ℝ) (lambd : ℝ) :
    Except String (Matrix (Fin nf) (Fin nc) ℝ) :=
  let rhs := codeᵀ * x
  let M := codeᵀ * code + (lambd * (ns : ℝ)) • (1 : Matrix (Fin nc) (Fin nc) ℝ)
  if M.PosDef then Except.ok (M⁻¹ * rhs)ᵀ
  else Except.error "linalg.cholesky: the input matrix is not positive-definite"

/-- C6: when `M = codeᵀ·code + lambd·n_samples·I` is positive definite,
`update_dict_ridge` returns `Except.ok` of the transpose of the solution `V`
of the normal equations `M · V = codeᵀ · x` (the closed-form ridge update);
when `M` is not positive definite the call fails with a propagated numerical
error instead of returning a dictionary. -/
theorem update_dict_ridge_spec {ns nf nc : ℕ} (x : Matrix (Fin ns) (Fin nf) ℝ)
    (code : Matrix (Fin ns) (Fin nc) ℝ) (lambd : ℝ) :
    (Matrix.PosDef (codeᵀ * code + (lambd * (ns : ℝ)) • (1 : Matrix (Fin nc) (Fin nc) ℝ)) →
      ∃ V, update_dict_ridge x code lambd = Except.ok V
        ∧ (codeᵀ * code + (lambd * (ns : ℝ)) • (1 : Matrix (Fin nc) (Fin nc) ℝ)) * Vᵀ
          = codeᵀ * x)
    ∧ (¬ Matrix.PosDef (codeᵀ * code + (lambd * (ns : ℝ)) • (1 : Matrix (Fin nc) (Fin nc) ℝ)) →
      ∃ e, update_dict_ridge x code lambd = Except.error e) := by
  constructor
  · intro hpd
    refine ⟨((codeᵀ * code + (lambd * (ns : ℝ)) • 1)⁻¹ * (codeᵀ * x))ᵀ, ?_, ?_⟩
    · simp [update_dict_ridge, hpd]
    · rw [Matrix.transpose_transpose, ← Matrix.mul_assoc,
        Matrix.mul_nonsing_inv _ ((Matrix.isUnit_iff_isUnit_det _).1 hpd.isUnit),
        Matrix.one_mul]
  · intro hpd
    exact ⟨"linalg.cholesky: the input matrix is not positive-definite",
      by simp [update_dict_ridge, hpd]⟩

/-- Witness for `update_dict_ridge_spec`: with one sample, one feature, one
component, `code = [[1]]`, `x = 3·[[1]]`, `lambd = 1`, the matrix
`M = [[1 + 1]] = [[2]]` is positive definite, and the returned dictionary `V`
satisfies `M · Vᵀ = codeᵀ·x`. -/
theorem update_dict_ridge_spec_witness :
    ∃ V, update_dict_ridge ((3 : ℝ) • onesM 1 1) (onesM 1 1) 1 = Except.ok V
      ∧ ((onesM 1 1)ᵀ * onesM 1 1
          + ((1 : ℝ) * ((1 : ℕ) : ℝ)) • (1 : Matrix (Fin 1) (Fin 1) ℝ)) * Vᵀ
        = (onesM 1 1)ᵀ * ((3 : ℝ) • onesM 1 1) := by
  have hpd : Matrix.PosDef ((onesM 1 1)ᵀ * onesM 1 1
      + ((1 : ℝ) * ((1 : ℕ) : ℝ)) • (1 : Matrix (Fin 1) (Fin 1) ℝ)) := by
    constructor
    · ext i j
      fin_cases i
      fin_cases j
      simp [Matrix.conjTranspose, Matrix.mul_apply, onesM]
    · intro v hv
      have hv0 : v 0 ≠ 0 := by
        intro h0
        apply hv
        funext i
        fin_cases i
        exact h0
      have hval : dotProduct (star v)
          (((onesM 1 1)ᵀ * onesM 1 1
            + ((1 : ℝ) * ((1 : ℕ) : ℝ)) • (1 : Matrix (Fin 1) (Fin 1) ℝ)) *ᵥ v)
          = 2 * v 0 ^ 2 := by
        simp [dotProduct, Matrix.mulVec, Matrix.mul_apply, Matrix.one_apply,
          Fin.sum_univ_one, onesM]
        ring
      rw [hval]
      positivity
  exact (update_dict_ridge_spec ((3 : ℝ) • onesM 1 1) (onesM 1 1) 1).1 hpd

/-! ## `dict_learning` (dict_learning.py, lines 142–175) -/

/-- `F.normalize(weight, dim=0)`: every column divided by
`max(‖column‖₂, 1e-12)`. -/
def colNormalize {nf nc : ℕ} (w : Matrix (Fin nf) (Fin nc) ℝ) :
    Matrix (Fin nf) (Fin nc) ℝ :=
  fun j k => w j k / max (l2norm fun j' => w j' k) 1e-12

/-- The loop state of `dict_learning`: current dictionary `weight`, the
warm-start code `Z0` (set only when `persist`), the recorded loss trace, the
number of completed outer iterations, and the number of generator draws
consumed by degenerate-atom reseeds. -/
structure DLState (nf nc ns : ℕ) where
  weight : Matrix (Fin nf) (Fin nc) ℝ
  Z0 : Option (Matrix (Fin ns) (Fin nc) ℝ)
  losses : List ℝ
  iters : ℕ
  draws : ℕ

/-- The `for i in range(steps)` loop of `dict_learning` (lines 157–173).
Each iteration: sparse-code against the current dictionary, record the
scalar loss, optionally persist the code, then update the dictionary via the
constrained `update_dict` (which also mutates the persisted code in place)
or via `update_dict_ridge` (whose Cholesky failure aborts the loop, modelled
by `Except.error`). -/
def dict_learning_loop {ns nf nc : ℕ} (co : SparseCollab ns nf nc)
    (x : Matrix (Fin ns) (Fin nf) ℝ) (alpha : ℝ) (constrained persist : Bool)
    (lambd : ℝ) (alg : String) (reseed : ℕ → Fin nf → ℝ) (geteps : ℝ) :
    ℕ → DLState nf nc ns → Except String (DLState nf nc ns)
  | 0, s => Except.ok s
  | Nat.succ n, s =>
    (sparse_encode co x s.weight alpha s.Z0 alg none).2.bind fun Z =>
      let loss := lasso_loss x Z s.weight alpha
      if constrained then
        let u := update_dict s.weight x Z true 1e-7 geteps reseed s.draws
        dict_learning_loop co x alpha constrained persist lambd alg reseed geteps n
          { weight := u.D, Z0 := if persist then some u.Z else s.Z0,
            losses := s.losses ++ [loss], iters := s.iters + 1, draws := u.draws }
      else
        (update_dict_ridge x Z lambd).bind fun w =>
          dict_learning_loop co x alpha constrained persist lambd alg reseed geteps n
            { weight := w, Z0 := if persist then some Z else s.Z0,
              losses := s.losses ++ [loss], iters := s.iters + 1, draws := s.draws }

theorem except_bind_ok {α β : Type} (a : α) (f : α → Except String β) :
    (Except.ok a : Except String α).bind f = f a := rfl

theorem except_bind_error {α β : Type} (e : String) (f : α → Except String β) :
    (Except.error e : Except String α).bind f = Except.error e := rfl

/-- `dict_learning(x, n_components, alpha, constrained, persist, lambd,
steps, ...)`.  The random orthogonal start (`torch.randn` +
`nn.init.orthogonal_`) is the parameter `w0`; when `constrained`, it is
column-normalised before the loop.  The progress bar is pure reporting and
is not modelled. -/
def dict_learning {ns nf nc : ℕ} (co : SparseCollab ns nf nc)
    (x : Matrix (Fin ns) (Fin nf) ℝ) (alpha : ℝ) (constrained persist : Bool)
    (lambd : ℝ) (steps : ℕ) (alg : String) (w0 : Matrix (Fin nf) (Fin nc) ℝ)
    (reseed : ℕ → Fin nf → ℝ) (geteps : ℝ) :
    Except String (DLState nf nc ns) :=
  dict_learning_loop co x alpha constrained persist lambd alg reseed geteps steps
    { weight := if constrained then colNormalize w0 else w0,
      Z0 := none, losses := [], iters := 0, draws := 0 }

theorem sparse_encode_ok_of_valid_alg {ns nf nc : ℕ} (co : SparseCollab ns nf nc)
    (x : Matrix (Fin ns) (Fin nf) ℝ) (weight : Matrix (Fin nf) (Fin nc) ℝ)
    (alpha : ℝ) (z0 : Option (Matrix (Fin ns) (Fin nc) ℝ))
    (alg : String) (initMode : Option String)
    (halg : alg = "cd" ∨ alg = "ista") :
    ∃ z, (sparse_encode co x weight alpha z0 alg initMode).2 = Except.ok z := by
  rcases halg with h | h <;> subst h <;> cases z0 <;>
    simp [sparse_encode, sparse_dispatch]

theorem dict_learning_loop_ok_counts {ns nf nc : ℕ} (co : SparseCollab ns nf nc)
    (x : Matrix (Fin ns) (Fin nf) ℝ) (alpha : ℝ) (constrained persist : Bool)
    (lambd : ℝ) (alg : String) (reseed : ℕ → Fin nf → ℝ) (geteps : ℝ) :
    ∀ (n : ℕ) (s₀ s : DLState nf nc ns),
      dict_learning_loop co x alpha constrained persist lambd alg reseed geteps n s₀
          = Except.ok s →
        s.iters = s₀.iters + n ∧ s.losses.length = s₀.losses.length + n := by
  intro n
  induction n with
  | zero =>
    intro s₀ s h
    simp only [dict_learning_loop] at h
    cases h
    exact ⟨rfl, rfl⟩
  | succ n ih =>
    intro s₀ s h
    simp only [dict_learning_loop] at h
    rcases hse : (sparse_encode co x s₀.weight alpha s₀.Z0 alg none).2 with e | Z
    · rw [hse, except_bind_error] at h
      cases h
    · rw [hse, except_bind_ok] at h
      by_cases hc : constrained
      · rw [if_pos hc] at h
        have := ih _ _ h
        simpa [Nat.add_assoc, Nat.add_comm 1 n] using this
      · rw [if_neg hc] at h
        rcases hr : update_dict_ridge x Z lambd with e | w
        · rw [hr, except_bind_error] at h
          cases h
        · rw [hr, except_bind_ok] at h
          have := ih _ _ h
          simpa [Nat.add_assoc, Nat.add_comm 1 n] using this

theorem dict_learning_loop_constrained_total {ns nf nc : ℕ}
    (co : SparseCollab ns nf nc) (x : Matrix (Fin ns) (Fin nf) ℝ) (alpha : ℝ)
    (persist : Bool) (lambd : ℝ) (alg : String) (reseed : ℕ → Fin nf → ℝ)
    (geteps : ℝ) (halg : alg = "cd" ∨ alg = "ista") :
    ∀ (n : ℕ) (s₀ : DLState nf nc ns),
      ∃ s, dict_learning_loop co x alpha true persist lambd alg reseed geteps n s₀
        = Except.ok s := by
  intro n
  induction n with
  | zero =>
    intro s₀
    exact ⟨s₀, rfl⟩
  | succ n ih =>
    intro s₀
    obtain ⟨z, hz⟩ := sparse_encode_ok_of_valid_alg co x s₀.weight alpha s₀.Z0 alg
      none halg
    obtain ⟨s, hs⟩ := ih
      { weight := (update_dict s₀.weight x z true 1e-7 geteps reseed s₀.draws).D,
        Z0 := if persist
          then some (update_dict s₀.weight x z true 1e-7 geteps reseed s₀.draws).Z
          else s₀.Z0,
        losses := s₀.losses ++ [lasso_loss x z s₀.weight alpha],
        iters := s₀.iters + 1,
        draws := (update_dict s₀.weight x z true 1e-7 geteps reseed s₀.draws).draws }
    refine ⟨s, ?_⟩
    simp only [dict_learning_loop, hz, except_bind_ok]
    simpa using hs

/-- C7: `dict_learning` runs for exactly `steps` outer iterations with no
early-stopping or convergence criterion: whenever it returns (and with
`constrained=True` and a valid solver name it always returns), the final
state has performed exactly `steps` iterations and its loss trace holds
exactly one entry per iteration. -/
theorem dict_learning_fixed_iteration_budget {ns nf nc : ℕ}
    (co : SparseCollab ns nf nc) (x : Matrix (Fin ns) (Fin nf) ℝ) (alpha : ℝ)
    (constrained persist : Bool) (lambd : ℝ) (steps : ℕ) (alg : String)
    (w0 : Matrix (Fin nf) (Fin nc) ℝ) (reseed : ℕ → Fin nf → ℝ) (geteps : ℝ)
    (halg : alg = "cd" ∨ alg = "ista") :
    (constrained = true →
      ∃ s, dict_learning co x alpha constrained persist lambd steps alg w0 reseed geteps
          = Except.ok s
        ∧ s.iters = steps ∧ s.losses.length = steps)
    ∧ (∀ s, dict_learning co x alpha constrained persist lambd steps alg w0 reseed geteps
          = Except.ok s →
        s.iters = steps ∧ s.losses.length = steps) := by
  constructor
  · rintro rfl
    obtain ⟨s, hs⟩ := dict_learning_loop_constrained_total co x alpha persist lambd alg
      reseed geteps halg steps
      { weight := if true = true then colNormalize w0 else w0,
        Z0 := none, losses := [], iters := 0, draws := 0 }
    refine ⟨s, hs, ?_⟩
    have := dict_learning_loop_ok_counts co x alpha true persist lambd alg reseed
      geteps steps _ s hs
    simpa using this
  · intro s hs
    have := dict_learning_loop_ok_counts co x alpha constrained persist lambd alg
      reseed geteps steps _ s hs
    simpa using this

/-- Witness for `dict_learning_fixed_iteration_budget`: a concrete
constrained two-step run with the trivial collaborators performs exactly two
iterations and records exactly two losses. -/
theorem dict_learning_fixed_iteration_budget_witness :
    ∃ s, dict_learning trivialCollab (zerosM 1 1) 1 true false 1e-2 2 "ista"
        (onesM 1 1) (fun _ _ => 1) 1e-7 = Except.ok s
      ∧ s.iters = 2 ∧ s.losses.length = 2 :=
  (dict_learning_fixed_iteration_budget trivialCollab (zerosM 1 1) 1 true false
    1e-2 2 "ista" (onesM 1 1) (fun _ _ => 1) 1e-7 (Or.inr rfl)).1 rfl

/-! ## `StainSeperation` (separation.py)

Images are modelled in BCHW layout with the two spatial dimensions already
flattened into one pixel index: `Fin B → Fin C → Fin HW → ℝ`.  The stain
extractor, the optical-density conversion `rgb2od`, the per-pixel solver
used by `get_concentrations_helper` (coordinate descent or ISTA with ridge
warm start, both from `functional/optimization/solver.py`), and `percentile`
are collaborators outside the two source files, bundled in `NormCollab`. -/

/-- A batched image in BCHW layout with flattened spatial dimensions. -/
abbrev Image (B C HW : ℕ) := Fin B → Fin C → Fin HW → ℝ

/-- Collaborators of `StainSeperation` / `get_concentrations`:
`rgb2od` is the elementwise optical-density conversion; `getStainMatrix` is
the pluggable stain extractor (per the source comment it yields one template
stain matrix `1 x num_stain x channel`, whose leading batch dimension we
drop); `solver` is `coord_descent(od, W.T, alpha)` or
`ista(od, "ridge", W.T, alpha)` returning a `(pixels x stains)` code; and
`percentile99` is `percentile(·, 99)` along the pixel axis. -/
structure NormCollab (C ns : ℕ) where
  rgb2od : ℝ → ℝ
  getStainMatrix : (b hw : ℕ) → Image b C hw → Matrix (Fin ns) (Fin C) ℝ
  solver : (hw : ℕ) → Matrix (Fin hw) (Fin C) ℝ → Matrix (Fin C) (Fin ns) ℝ →
    ℝ → Matrix (Fin hw) (Fin ns) ℝ
  percentile99 : (hw : ℕ) → (Fin hw → ℝ) → ℝ

/-- `od.flatten(start_dim=2).permute(0, 2, 1)` after `rgb2od(image)`:
the per-image `(pixels x channels)` optical-density matrix. -/
def od_flatten {C ns b hw : ℕ} (co : NormCollab C ns) (image : Image b C hw)
    (i : Fin b) : Matrix (Fin hw) (Fin C) ℝ :=
  fun p c => co.rgb2od (image i c p)

/-- `get_concentrations(image, stain_matrix, regularizer, algorithm)`
(dict_learning.py, lines 178–224): per image in the batch, solve for the
code against the transposed stain matrix and transpose the result, giving a
`(stains x pixels)` concentration matrix; results are stacked in order. -/
def get_concentrations {C ns b hw : ℕ} (co : NormCollab C ns)
    (image : Image b C hw) (stains : Fin b → Matrix (Fin ns) (Fin C) ℝ)
    (regularizer : ℝ) : Fin b → Matrix (Fin ns) (Fin hw) ℝ :=
  fun i => (co.solver hw (od_flatten co image i) (stains i)ᵀ regularizer)ᵀ

/-- `StainSeperation._transpose_trailing`: `torch.einsum("ijk -> ikj", mat)`.
For a single-operand pure permutation torch.einsum permutes the input, so
the result shares the input tensor storage (it is a view). -/
def transpose_trailing {b m n : ℕ} (mat : Fin b → Matrix (Fin m) (Fin n) ℝ) :
    Fin b → Matrix (Fin n) (Fin m) ℝ :=
  fun i => (mat i)ᵀ

/-- The state registered by `StainSeperation.fit`: the target stain matrix,
target concentrations and the 99th-percentile concentration scale
(`maxC_target`), all persisted as buffers. -/
structure FitState (C ns HWt : ℕ) where
  stain_matrix_target : Matrix (Fin ns) (Fin C) ℝ
  target_concentrations : Fin 1 → Matrix (Fin ns) (Fin HWt) ℝ
  maxC_target : Fin ns → ℝ

/-- `StainSeperation.fit(target, regularizer)` (separation.py, lines 47–74):
requires a single-image batch (enforced here by typing `target` with batch
size 1, mirroring `assert target.shape[0] == 1`), extracts the target stain
matrix, estimates target concentrations, and stores the 99th percentile of
the transposed concentrations along the pixel axis. -/
def fit {C ns HWt : ℕ} (co : NormCollab C ns) (target : Image 1 C HWt)
    (regularizer : ℝ) : FitState C ns HWt :=
  let stain_matrix_target := co.getStainMatrix 1 HWt target
  let target_conc := get_concentrations co target (fun _ => stain_matrix_target)
    regularizer
  let conc_transpose := transpose_trailing target_conc
  { stain_matrix_target := stain_matrix_target
    target_concentrations := target_conc
    maxC_target := fun s => co.percentile99 HWt (fun p => conc_transpose 0 p s) }

/-- `StainSeperation.transform(image)` (separation.py, lines 101–141):

    stain_matrix_source = self.stain_matrix_source  if fixed, else
                          self.get_stain_matrix(image)
    stain_matrix_source = repeat_stain_mat(stain_matrix_source, image)
    source_concentration = get_concentrations(image, stain_matrix_source)
    c_transposed_srd = _transpose_trailing(source_concentration)
    maxC = percentile(c_transposed_srd, 99, dim=1)
    c_scale = (self.maxC_target / maxC).unsqueeze(-1)
    source_concentration *= c_scale
    out = torch.exp(-1 * torch.matmul(c_transposed_srd, self.stain_matrix_target))
    out = _transpose_trailing(out)
    return out.reshape(image.shape).clamp_(0, 1)

`source_concentration *= c_scale` multiplies in place, and
`c_transposed_srd` — an einsum permutation of `source_concentration` — is a
view of the same storage, so the `matmul` sees the RESCALED concentrations;
the model therefore rebuilds the scaled tensor and transposes it. -/
def transform {C ns B HW HWt : ℕ} (co : NormCollab C ns) (fs : FitState C ns HWt)
    (fixedSource : Option (Matrix (Fin ns) (Fin C) ℝ)) (image : Image B C HW) :
    Image B C HW :=
  let stain_matrix_source := match fixedSource with
    | some m => m
    | none => co.getStainMatrix B HW image
  -- repeat_stain_mat: the single template repeated over the batch dimension
  let source_concentration := get_concentrations co image
    (fun _ => stain_matrix_source) 0.01
  let c_transposed_srd := transpose_trailing source_concentration
  let maxC : Fin B → Fin ns → ℝ := fun b s =>
    co.percentile99 HW (fun p => c_transposed_srd b p s)
  let c_scale : Fin B → Fin ns → ℝ := fun b s => fs.maxC_target s / maxC b s
  let scaled_concentration : Fin B → Matrix (Fin ns) (Fin HW) ℝ := fun b s p =>
    c_scale b s * source_concentration b s p
  let out := fun b => (transpose_trailing scaled_concentration b
    * fs.stain_matrix_target).map fun v => Real.exp (-1 * v)
  let out2 := transpose_trailing out
  fun b c p => clamp01 (out2 b c p)

theorem clamp01_nonneg (x : ℝ) : 0 ≤ clamp01 x :=
  le_min (le_max_right x 0) zero_le_one

theorem clamp01_le_one (x : ℝ) : clamp01 x ≤ 1 :=
  min_le_right _ _

theorem clamp01_eq_self {x : ℝ} (h0 : 0 ≤ x) (h1 : x ≤ 1) : clamp01 x = x := by
  rw [clamp01, max_eq_left h0, min_eq_left h1]

/-- Modelled from the spec: the image reconstructed from the RESCALED source
concentrations — each per-image concentration multiplied per stain channel
by `maxC_target / maxC_source` (99th-percentile scales), then the
Beer–Lambert reconstruction `exp(−concentration · target_stain_matrix)`,
reshaped to the input layout and clamped to `[0, 1]`. -/
def spec_rescaled_reconstruction {C ns B HW HWt : ℕ} (co : NormCollab C ns)
    (fs : FitState C ns HWt) (fixedSource : Option (Matrix (Fin ns) (Fin C) ℝ))
    (image : Image B C HW) : Image B C HW :=
  let sm := match fixedSource with
    | some m => m
    | none => co.getStainMatrix B HW image
  let conc := get_concentrations co image (fun _ => sm) 0.01
  let maxC : Fin B → Fin ns → ℝ := fun b s =>
    co.percentile99 HW (fun p => conc b s p)
  fun b c p => clamp01 (Real.exp
    (-(∑ s, (fs.maxC_target s / maxC b s * conc b s p) * fs.stain_matrix_target s c)))

/-- C1: `transform` reconstructs the output from the rescaled source
concentrations: each concentration is multiplied per stain channel by
`maxC_target / maxC_source`, and `exp(−concentration · target_stain_matrix)`
is applied to those rescaled concentrations (because the in-place
`source_concentration *= c_scale` also updates the einsum view fed into the
matmul), so the output depends on the ratio of the 99th-percentile scales. -/
theorem transform_reconstructs_from_rescaled {C ns B HW HWt : ℕ}
    (co : NormCollab C ns) (fs : FitState C ns HWt)
    (fixedSource : Option (Matrix (Fin ns) (Fin C) ℝ)) (image : Image B C HW) :
    transform co fs fixedSource image
      = spec_rescaled_reconstruction co fs fixedSource image := by
  funext b c p
  simp only [transform, spec_rescaled_reconstruction, transpose_trailing,
    Matrix.map_apply, Matrix.mul_apply, Matrix.transpose_apply, neg_one_mul,
    neg_inj]

/-- C8: every entry of the image returned by `transform` lies in `[0, 1]`
(whatever the intermediate `exp` reconstruction produced), and the output is
indexed exactly like the BCHW input (same batch, channel and pixel index
types).  Boundary values are ordinary outputs of the final clamp. -/
theorem transform_output_in_unit_interval {C ns B HW HWt : ℕ}
    (co : NormCollab C ns) (fs : FitState C ns HWt)
    (fixedSource : Option (Matrix (Fin ns) (Fin C) ℝ)) (image : Image B C HW)
    (b : Fin B) (c : Fin C) (p : Fin HW) :
    0 ≤ transform co fs fixedSource image b c p
      ∧ transform co fs fixedSource image b c p ≤ 1 :=
  ⟨clamp01_nonneg _, clamp01_le_one _⟩

/-- C9: fitting on a target image and immediately transforming that same
image is the identity, under the idealisations that the collaborator
`rgb2od` is the exact Beer–Lambert conversion `-log`, the sparse solver
factorises the target optical density exactly, every target pixel value lies
in `(0, 1]`, and the 99th-percentile target concentration scale is non-zero
in every stain channel (so the rescale factor is `1`). -/
theorem fit_transform_roundtrip {C ns HWt : ℕ} (co : NormCollab C ns)
    (target : Image 1 C HWt)
    (hsolve : ∀ (p : Fin HWt) (c : Fin C),
      ∑ s, (fit co target 0.01).target_concentrations 0 s p
          * (fit co target 0.01).stain_matrix_target s c
        = co.rgb2od (target 0 c p))
    (hod : ∀ v, co.rgb2od v = -Real.log v)
    (himg : ∀ (b : Fin 1) (c : Fin C) (p : Fin HWt),
      0 < target b c p ∧ target b c p ≤ 1)
    (hmax : ∀ s, (fit co target 0.01).maxC_target s ≠ 0) :
    transform co (fit co target 0.01) none target = target := by
  funext b c p
  have hb : b = 0 := Subsingleton.elim b 0
  subst hb
  show clamp01 (Real.exp (-1 * ∑ s,
      ((fit co target 0.01).maxC_target s / (fit co target 0.01).maxC_target s
        * (fit co target 0.01).target_concentrations 0 s p)
      * (fit co target 0.01).stain_matrix_target s c)) = target 0 c p
  have hscale : ∀ s, (fit co target 0.01).maxC_target s
      / (fit co target 0.01).maxC_target s = 1 := fun s => div_self (hmax s)
  simp only [hscale, one_mul]
  rw [hsolve p c, hod]
  rw [neg_one_mul, neg_neg, Real.exp_log (himg 0 c p).1]
  exact clamp01_eq_self (le_of_lt (himg 0 c p).1) (himg 0 c p).2

/-- Concrete collaborators for the round-trip witness: the exact `−log`
optical-density conversion, a constant all-ones `1 × 1` stain matrix, a
solver that returns the optical density itself (exact for this stain
matrix), and a percentile that picks the first pixel. -/
def roundCollab : NormCollab 1 1 where
  rgb2od := fun v => -Real.log v
  getStainMatrix := fun _ _ _ => fun _ _ => 1
  solver := fun _ odm _ _ => fun p _ => odm p 0
  percentile99 := fun hw v => if h : 0 < hw then v ⟨0, h⟩ else 0

/-- The single-pixel target image of the round-trip witness, with pixel
value `exp (−1) ∈ (0, 1]`. -/
def roundTarget : Image 1 1 1 := fun _ _ _ => Real.exp (-1)

/-- Witness for `fit_transform_roundtrip`: on the concrete single-pixel
target, fitting and then transforming the identical image returns the image
exactly. -/
theorem fit_transform_roundtrip_witness :
    transform roundCollab (fit roundCollab roundTarget 0.01) none roundTarget
      = roundTarget := by
  apply fit_transform_roundtrip
  · intro p c
    fin_cases p
    fin_cases c
    simp [fit, get_concentrations, od_flatten, transpose_trailing, roundCollab,
      roundTarget, Fin.sum_univ_one, Matrix.transpose_apply]
  · intro v
    rfl
  · intro b c p
    exact ⟨Real.exp_pos _, Real.exp_le_one_iff.2 (by norm_num)⟩
  · intro s
    fin_cases s
    simp [fit, get_concentrations, od_flatten, transpose_trailing, roundCollab,
      roundTarget, Real.log_exp]

end TorchStainNorm
